import Mathlib

/-!
Verification of the `nf-lamin` registration script
(`docs/register_scrnaseq_run.py`): a shallow embedding of the script's
file-system globbing, regex extraction, timestamp parsing, JSON parsing
and catalog-client call sequence, together with theorems settling the
specification's claims about it.

The external catalog client (`lamindb`) is modelled as explicit state:
records created or saved by the script are accumulated in a `State`
value.  The file system is modelled as a list of entries, in directory
listing order.  Python exceptions are modelled with `Except`.
-/

namespace NfLamin

/-- Model of a `StopIteration` / `ValueError` / `json.JSONDecodeError`
escaping the script (no exception is caught anywhere in the source). -/
inductive PyErr where
  | stopIteration
  | valueError
  | jsonDecodeError
  deriving DecidableEq, Repr

/-- A file in the modelled file system: the directory it sits in, its
name inside that directory, and its text content. -/
structure Entry where
  dir : String
  name : String
  content : String
  deriving DecidableEq, Repr

/-- Full path of a file entry. -/
def Entry.path (e : Entry) : String := e.dir ++ "/" ++ e.name

/-- The file system: entries in directory listing order (the order
`pathlib.Path.glob` yields matches in). -/
def FS : Type := List Entry

/-- Decide whether `p` is a leading segment of `s` (used for the
recursive directory walk of `Artifact.from_dir`). -/
def listStarts : List Char → List Char → Bool
  | [], _ => true
  | _ :: _, [] => false
  | p :: ps, c :: cs => p == c && listStarts ps cs

/-- String version of `listStarts`. -/
def strStarts (p s : String) : Bool := listStarts p.data s.data

/-- If the literal characters `lits` lead the input, return the rest of
the input; otherwise `none`.  Used for literal regex fragments. -/
def dropLits : List Char → List Char → Option (List Char)
  | [], cs => some cs
  | _ :: _, [] => none
  | p :: ps, c :: cs => if p = c then dropLits ps cs else none

/-- Fueled shell-glob matcher (structural recursion on the fuel, so
that concrete matches reduce in the kernel): `*` matches any (possibly
empty) sequence of characters, all other characters match themselves. -/
def globMatchF : Nat → List Char → List Char → Bool
  | 0, _, _ => false
  | f + 1, ps, cs =>
    match ps with
    | [] => cs.isEmpty
    | p :: ps' =>
      if p = '*' then
        match cs with
        | [] => globMatchF f ps' []
        | _ :: cs' => globMatchF f ps' cs || globMatchF f ps cs'
      else
        match cs with
        | [] => false
        | c :: cs' => p == c && globMatchF f ps' cs'

/-- Shell-glob matching as performed by `pathlib.Path.glob` on a single
path component.  The patterns used by the script
(`execution_report_*.html`, `execution_report*`, `nf_core_*_software*`,
`params*`) contain no glob syntax beyond `*`.  The fuel
`ps.length + cs.length + 1` is adequate: every recursive call lowers
the combined length. -/
def globMatch (ps cs : List Char) : Bool :=
  globMatchF (ps.length + cs.length + 1) ps cs

/-- Model of `Path(dir).glob(pat)`: the entries of directory `dir` whose
names match the pattern, in listing order. -/
def globDir (fs : FS) (dir : String) (pat : String) : List Entry :=
  fs.filter (fun e => e.dir == dir && globMatch pat.data e.name.data)

/-- Model of `re.search(r"run id \[([^\]]+)\]", content)` attempted at
the head of the input: the literal `run id [`, then a maximal nonempty
run of characters other than `]`, then `]`.  Returns the captured group.
(The greedy `[^\]]+` cannot backtrack usefully here: every shorter
capture leaves a non-`]` character where `]` is required.) -/
def runIdAt (cs : List Char) : Option (List Char) :=
  match dropLits "run id [".data cs with
  | none => none
  | some rest =>
    let cap := rest.takeWhile (fun c => c ≠ ']')
    match cap, rest.dropWhile (fun c => c ≠ ']') with
    | [], _ => none
    | _ :: _, ']' :: _ => some cap
    | _ :: _, _ => none

/-- Leftmost match of the `run id [...]` pattern, as `re.search` finds
it: try every start position from the left. -/
def searchRunId : List Char → Option (List Char)
  | [] => none
  | c :: cs =>
    match runIdAt (c :: cs) with
    | some cap => some cap
    | none => searchRunId cs

/-- Model of the capture of
`re.search(r&quot;&lt;span id=_workflow_complete_&gt;([^&lt;]+)&lt;/span&gt;&quot;, content)`
attempted at the head of the input: the literal opening tag, a maximal
nonempty run of characters other than `<`, then the literal `</span>`. -/
def completeAt (cs : List Char) : Option (List Char) :=
  match dropLits "<span id=\"workflow_complete\">".data cs with
  | none => none
  | some rest =>
    let cap := rest.takeWhile (fun c => c ≠ '<')
    match cap, dropLits "</span>".data (rest.dropWhile (fun c => c ≠ '<')) with
    | [], _ => none
    | _ :: _, some _ => some cap
    | _ :: _, none => none

/-- Leftmost match of the `workflow_complete` span pattern. -/
def searchComplete : List Char → Option (List Char)
  | [] => none
  | c :: cs =>
    match completeAt (c :: cs) with
    | some cap => some cap
    | none => searchComplete cs

/-- ASCII whitespace as removed by Python `str.strip`. -/
def isPySpace (c : Char) : Bool :=
  c == ' ' || c == '\t' || c == '\n' || c == '\x0d' || c == '\x0b' || c == '\x0c'

/-- Model of Python `str.strip()`: drop leading and trailing whitespace. -/
def pyStrip (cs : List Char) : List Char :=
  ((cs.dropWhile isPySpace).reverse.dropWhile isPySpace).reverse

/-- A `datetime.datetime` value as produced by `datetime.strptime`. -/
structure DateTime where
  year : Nat
  month : Nat
  day : Nat
  hour : Nat
  minute : Nat
  second : Nat
  deriving DecidableEq, Repr

/-- Read one or two leading decimal digits (greedy), as the `strptime`
field regexes for `%d`, `%H`, `%M`, `%S` do. -/
def digits2 : List Char → Option (Nat × List Char)
  | c :: d :: cs =>
    if c.isDigit then
      if d.isDigit then some ((c.toNat - 48) * 10 + (d.toNat - 48), cs)
      else some (c.toNat - 48, d :: cs)
    else none
  | c :: [] => if c.isDigit then some (c.toNat - 48, []) else none
  | [] => none

/-- Read exactly four decimal digits, as the `strptime` regex for `%Y`
does. -/
def digits4 : List Char → Option (Nat × List Char)
  | a :: b :: c :: d :: cs =>
    if a.isDigit && b.isDigit && c.isDigit && d.isDigit then
      some ((((a.toNat - 48) * 10 + (b.toNat - 48)) * 10 + (c.toNat - 48)) * 10
              + (d.toNat - 48), cs)
    else none
  | _ => none

/-- The English month abbreviations recognised by `%b`, lower-cased
(`strptime` matches them case-insensitively). -/
def monthAbbrevs : List (List Char) :=
  ["jan".data, "feb".data, "mar".data, "apr".data, "may".data, "jun".data,
   "jul".data, "aug".data, "sep".data, "oct".data, "nov".data, "dec".data]

/-- Read a three-letter month abbreviation, case-insensitively. -/
def readMonth : List Char → Option (Nat × List Char)
  | a :: b :: c :: cs =>
    match (monthAbbrevs.indexOf [a.toLower, b.toLower, c.toLower] : Nat) with
    | 12 => none
    | i => some (i + 1, cs)
  | _ => none

/-- Whether `y` is a Gregorian leap year. -/
def isLeap (y : Nat) : Bool := (y % 4 == 0 && y % 100 != 0) || y % 400 == 0

/-- Number of days in month `m` of year `y`. -/
def daysInMonth (y m : Nat) : Nat :=
  if m = 2 then (if isLeap y then 29 else 28)
  else if m = 4 ∨ m = 6 ∨ m = 9 ∨ m = 11 then 30
  else 31

/-- Consume one or more whitespace characters (a literal space in a
`strptime` format string matches `\s+`). -/
def dropWs1 (cs : List Char) : Option (List Char) :=
  match cs with
  | c :: cs' => if isPySpace c then some (cs'.dropWhile isPySpace) else none
  | [] => none

/-- Model of
`datetime.strptime(s, &quot;%d-%b-%Y %H:%M:%S&quot;)`: parse day, dash,
abbreviated month, dash, four-digit year, whitespace, `H:M:S`, require
the whole string consumed, and enforce the ranges `datetime` itself
enforces (month length, hour below 24, minute and second below 60,
year at least 1).  A failure models the uncaught `ValueError`. -/
def strptimeDBY (cs : List Char) : Option DateTime :=
  match digits2 cs with
  | none => none
  | some (day, r1) =>
    match r1 with
    | '-' :: r2 =>
      match readMonth r2 with
      | none => none
      | some (month, r3) =>
        match r3 with
        | '-' :: r4 =>
          match digits4 r4 with
          | none => none
          | some (year, r5) =>
            match dropWs1 r5 with
            | none => none
            | some r6 =>
              match digits2 r6 with
              | none => none
              | some (hour, r7) =>
                match r7 with
                | ':' :: r8 =>
                  match digits2 r8 with
                  | none => none
                  | some (minute, r9) =>
                    match r9 with
                    | ':' :: r10 =>
                      match digits2 r10 with
                      | none => none
                      | some (second, r11) =>
                        if r11.isEmpty && 1 ≤ year && 1 ≤ day &&
                            day ≤ daysInMonth year month && hour ≤ 23 &&
                            minute ≤ 59 && second ≤ 59 then
                          some ⟨year, month, day, hour, minute, second⟩
                        else none
                    | _ => none
                | _ => none
        | _ => none
    | _ => none

/-- JSON values as produced by `json.load` (the subset the script can
meet suffices: the parameters file of an `nf-core` run is an object of
strings, numbers, booleans, nulls, arrays and nested objects). -/
inductive Json where
  | null : Json
  | bool (b : Bool) : Json
  | num (n : Int) : Json
  | str (s : String) : Json
  | arr (elems : List Json) : Json
  | obj (fields : List (String × Json)) : Json
  deriving Repr

/-- JSON whitespace. -/
def skipWs (cs : List Char) : List Char :=
  cs.dropWhile (fun c => c == ' ' || c == '\t' || c == '\n' || c == '\x0d')

/-- Parse a JSON string body after the opening quote (no escape
sequences; none occur in the inputs of interest). -/
def parseJStr (cs : List Char) : Option (String × List Char) :=
  let body := cs.takeWhile (fun c => c ≠ '\"')
  match cs.dropWhile (fun c => c ≠ '\"') with
  | '\"' :: rest => some (String.mk body, rest)
  | _ => none

/-- Parse a JSON integer (optional minus sign, one or more digits). -/
def parseJNum (cs : List Char) : Option (Int × List Char) :=
  let go : List Char → Option (Nat × List Char) := fun ds =>
    match ds.takeWhile Char.isDigit with
    | [] => none
    | digs =>
      some (digs.foldl (fun acc c => acc * 10 + (c.toNat - 48)) 0,
        ds.dropWhile Char.isDigit)
  match cs with
  | '-' :: rest =>
    match go rest with
    | some (n, r) => some (-(n : Int), r)
    | none => none
  | _ =>
    match go cs with
    | some (n, r) => some ((n : Int), r)
    | none => none

mutual

/-- Fueled recursive-descent JSON value parser (model of `json.load`). -/
def parseJVal : Nat → List Char → Option (Json × List Char)
  | 0, _ => none
  | fuel + 1, cs =>
    match skipWs cs with
    | '\"' :: rest =>
      match parseJStr rest with
      | some (s, r) => some (.str s, r)
      | none => none
    | '{' :: rest => parseJObj fuel (skipWs rest)
    | '[' :: rest => parseJArr fuel (skipWs rest)
    | 't' :: 'r' :: 'u' :: 'e' :: rest => some (.bool true, rest)
    | 'f' :: 'a' :: 'l' :: 's' :: 'e' :: rest => some (.bool false, rest)
    | 'n' :: 'u' :: 'l' :: 'l' :: rest => some (.null, rest)
    | other =>
      match parseJNum other with
      | some (n, r) => some (.num n, r)
      | none => none

/-- Parse the inside of a JSON object, starting right after `\x7b` (with
leading whitespace consumed). -/
def parseJObj : Nat → List Char → Option (Json × List Char)
  | 0, _ => none
  | fuel + 1, cs =>
    match cs with
    | '}' :: rest => some (.obj [], rest)
    | _ => parseJMembers fuel cs []

/-- Parse one or more `key : value` members followed by `\x7d`. -/
def parseJMembers : Nat → List Char → List (String × Json) →
    Option (Json × List Char)
  | 0, _, _ => none
  | fuel + 1, cs, acc =>
    match skipWs cs with
    | '\"' :: rest =>
      match parseJStr rest with
      | none => none
      | some (key, r1) =>
        match skipWs r1 with
        | ':' :: r2 =>
          match parseJVal fuel r2 with
          | none => none
          | some (v, r3) =>
            match skipWs r3 with
            | ',' :: r4 => parseJMembers fuel r4 (acc ++ [(key, v)])
            | '}' :: r4 => some (.obj (acc ++ [(key, v)]), r4)
            | _ => none
        | _ => none
    | _ => none

/-- Parse the inside of a JSON array, starting right after `[` (with
leading whitespace consumed). -/
def parseJArr : Nat → List Char → Option (Json × List Char)
  | 0, _ => none
  | fuel + 1, cs =>
    match cs with
    | ']' :: rest => some (.arr [], rest)
    | _ => parseJItems fuel cs []

/-- Parse one or more array items followed by `]`. -/
def parseJItems : Nat → List Char → List Json → Option (Json × List Char)
  | 0, _, _ => none
  | fuel + 1, cs, acc =>
    match parseJVal fuel cs with
    | none => none
    | some (v, r1) =>
      match skipWs r1 with
      | ',' :: r2 => parseJItems fuel r2 (acc ++ [v])
      | ']' :: r2 => some (.arr (acc ++ [v]), r2)
      | _ => none

end

/-- Model of `json.load` on the whole file content: parse one value and
require only whitespace after it.  `none` models the uncaught
`json.JSONDecodeError`. -/
def jsonLoad (s : String) : Option Json :=
  match parseJVal (s.data.length + 1) s.data with
  | some (v, rest) => if (skipWs rest).isEmpty then some v else none
  | none => none

/-- A catalog `Artifact` record as the script creates them:
`visibility` defaults to `1` (the `lamindb` default), `runLinked`
records whether the artifact was created with `run=run`. -/
structure Artifact where
  path : String
  description : Option String := none
  key : Option String := none
  visibility : Int := 1
  runLinked : Bool := false
  deriving DecidableEq, Repr

/-- A catalog `Transform` record (lines 78–83 of the script). -/
structure Transform where
  key : String
  version : String
  type : String
  reference : String
  deriving DecidableEq, Repr

/-- The `Run` record the script incrementally populates. -/
structure Run where
  reference : Option String := none
  reference_type : Option String := none
  finished_at : Option DateTime := none
  input_artifacts : List Artifact := []
  report : Option Artifact := none
  environment : Option Artifact := none
  paramsValues : List (String × Json) := []

/-- The persisted world: the transform and run records, every saved
artifact, saved labels and parameter definitions, emitted warnings
(recorded by the glob pattern the warning names), and how many times
`run.save()` has executed. -/
structure State where
  transform : Transform
  run : Run
  savedArtifacts : List Artifact
  ulabels : List String
  transformLabels : List String
  paramDefs : List (String × String)
  warnings : List String
  runSaveCount : Nat

/-- Model of `ln.Artifact.from_dir(input_dir, run=False)`: one artifact
per file anywhere under `input_dir` (recursively), not tied to the run. -/
def fromDir (fs : FS) (input_dir : String) : List Artifact :=
  (fs.filter (fun e => e.dir == input_dir || strStarts (input_dir ++ "/") e.dir)).map
    (fun e => { path := e.path })

/-- Embedding of `register_pipeline_io` (lines 16–26): bulk-register the
input files, link them as the run's inputs, then register the two fixed
outputs `\x7boutput\x7d/multiqc` and
`\x7boutput\x7d/star/mtx_conversions/combined_filtered_matrix.h5ad`
(the latter under key `filtered_count_matrix.h5ad`) with `run=run`. -/
def register_pipeline_io (fs : FS) (input_dir output_dir : String)
    (st : State) : State :=
  let inputArtifacts := fromDir fs input_dir
  let a1 : Artifact :=
    { path := output_dir ++ "/multiqc", description := some "multiqc report",
      runLinked := true }
  let a2 : Artifact :=
    { path := output_dir ++ "/star/mtx_conversions/combined_filtered_matrix.h5ad",
      key := some "filtered_count_matrix.h5ad", runLinked := true }
  { st with
    savedArtifacts := st.savedArtifacts ++ inputArtifacts ++ [a1, a2],
    run := { st.run with input_artifacts := inputArtifacts } }

/-- The directory the metadata step globs in. -/
def pipelineInfo (output_dir : String) : String := output_dir ++ "/pipeline_info"

/-- The run id the script extracts:
`match.group(1) if match else &quot;&quot;` (line 37). -/
def extractRunId (content : String) : String :=
  match searchRunId content.data with
  | some cap => String.mk cap
  | none => ""

/-- The artifact the optional-file loop builds from the first glob
match: `visibility=0`, description naming the run id, `run=False`
(line 59–64). -/
def optArtifact (f : Entry) (nid desc : String) : Artifact :=
  { path := f.path,
    description := some ("nextflow run " ++ desc ++ " of " ++ nid),
    visibility := 0 }

/-- Embedding of one iteration of the optional-file loop (lines 50–65):
warn and skip when the glob is empty, otherwise save the first match as
a `visibility=0` artifact whose description names the run id, and set it
on the given run slot (`setattr(run, run_attr, artifact)`).  A warning
is recorded by the glob pattern it names. -/
def optionalFileStep (fs : FS) (dir nid pat desc : String)
    (setSlot : Run → Option Artifact → Run) (st : State) : State :=
  match globDir fs dir pat with
  | [] => { st with warnings := st.warnings ++ [pat] }
  | f :: _ =>
    { st with savedArtifacts := st.savedArtifacts ++ [optArtifact f nid desc],
              run := setSlot st.run (some (optArtifact f nid desc)) }

/-- Setter for the run attribute `report` of the loop's first entry. -/
def repSet : Run → Option Artifact → Run := fun r a => { r with report := a }

/-- Setter for the run attribute `environment` of the loop's second
entry. -/
def envSet : Run → Option Artifact → Run := fun r a => { r with environment := a }

/-- Lines 31–32: save the `nextflow` ULabel and add it to the
transform's labels. -/
def tagStep (st : State) : State :=
  { st with ulabels := st.ulabels ++ ["nextflow"],
            transformLabels := st.transformLabels ++ ["nextflow"] }

/-- Lines 38–39: store the extracted run id as the run's reference. -/
def refStep (nid : String) (st : State) : State :=
  { st with run := { st.run with reference := some nid,
                                 reference_type := some "nextflow_id" } }

/-- Lines 42–47 as a result: set `finished_at` when a timestamp was
parsed, otherwise leave the run untouched. -/
def finishStep (ts : Option DateTime) (st : State) : State :=
  match ts with
  | none => st
  | some dt => { st with run := { st.run with finished_at := some dt } }

/-- Lines 42–47 as a computation: search for the `workflow_complete`
span; absent means no timestamp (not an error); present means its
stripped text goes through `strptime`, whose failure is an uncaught
`ValueError`. -/
def tsStep (content : String) : Except PyErr (Option DateTime) :=
  match searchComplete content.data with
  | none => .ok none
  | some cap =>
    match strptimeDBY (pyStrip cap) with
    | none => .error .valueError
    | some dt => .ok (some dt)

/-- Lines 71–74: save the `params` Param definition, attach the parsed
dictionary under the parameter name `params`, and run `run.save()`. -/
def paramsStep (v : Json) (st : State) : State :=
  { st with
    paramDefs := st.paramDefs ++ [("params", "dict")],
    run := { st.run with
      paramsValues := st.run.paramsValues ++ [("params", v)] },
    runSaveCount := st.runSaveCount + 1 }

/-- The state after the non-failing prefix of `register_pipeline_metadata`
up to (and including) the optional-file loop, given the execution report
entry `e` and the timestamp `ts` obtained from it. -/
def midState (fs : FS) (out : String) (e : Entry) (ts : Option DateTime)
    (st : State) : State :=
  optionalFileStep fs (pipelineInfo out) (extractRunId e.content)
    "nf_core_*_software*" "software versions" envSet
    (optionalFileStep fs (pipelineInfo out) (extractRunId e.content)
      "execution_report*" "execution report" repSet
      (finishStep ts (refStep (extractRunId e.content) (tagStep st))))

/-- Embedding of `register_pipeline_metadata` (lines 29–74), in source
order: tag the transform with the `nextflow` label; read the sole
`execution_report_*.html` (uncaught `StopIteration` when the glob is
empty); extract the run id and set `reference`/`reference_type`; parse
the completion timestamp (`tsStep`); run the optional-file loop for the
report and the software versions; read and JSON-parse the sole `params*`
file (uncaught `StopIteration` / `JSONDecodeError`); attach the
parameters and save the run.  On the error paths the in-memory run
mutations already performed are discarded, as nothing persists them. -/
def register_pipeline_metadata (fs : FS) (output_dir : String)
    (st : State) : Except PyErr State :=
  match globDir fs (pipelineInfo output_dir) "execution_report_*.html" with
  | [] => .error .stopIteration
  | e :: _ =>
    match tsStep e.content with
    | .error err => .error err
    | .ok ts =>
      match globDir fs (pipelineInfo output_dir) "params*" with
      | [] => .error .stopIteration
      | p :: _ =>
        match jsonLoad p.content with
        | none => .error .jsonDecodeError
        | some v => .ok (paramsStep v (midState fs output_dir e ts st))

/-- The `Transform` record the script creates (lines 78–83); its fields
are literals, independent of the CLI arguments. -/
def scrnaseqTransform : Transform :=
  { key := "scrna-seq", version := "4.0.0", type := "pipeline",
    reference := "https://github.com/nf-core/scrnaseq" }

/-- State after the script's setup phase: arguments parsed, transform
and run created and saved.  The CLI arguments are taken as parameters to
exhibit that the setup does not depend on them. -/
def initState (_input_dir _output_dir : String) : State :=
  { transform := scrnaseqTransform, run := {}, savedArtifacts := [],
    ulabels := [], transformLabels := [], paramDefs := [], warnings := [],
    runSaveCount := 1 }

/-- The whole script (lines 77–86): setup, then
`register_pipeline_io`, then `register_pipeline_metadata`. -/
def runScript (fs : FS) (input_dir output_dir : String) : Except PyErr State :=
  register_pipeline_metadata fs output_dir
    (register_pipeline_io fs input_dir output_dir (initState input_dir output_dir))

/-- Project the state out of a successful result (used to state closed
witness facts about concrete runs). -/
def okOr (r : Except PyErr State) (d : State) : State :=
  match r with
  | .ok s => s
  | .error _ => d

/-- Whether a result is a success. -/
def isOkResult (r : Except PyErr State) : Bool :=
  match r with
  | .ok _ => true
  | .error _ => false

/-! ### Concrete fixtures used by witnesses and counterexamples -/

/-- A well-formed execution report: run id `abc123`, completion
timestamp `07-Oct-2024 12:30:45`. -/
def goodHtml : String :=
  "<html>Nextflow run id [abc123] done. <span id=\"workflow_complete\">07-Oct-2024 12:30:45</span></html>"

/-- The report entry of the valid output tree. -/
def goodReportEntry : Entry :=
  { dir := "out/pipeline_info", name := "execution_report_2024-10-07.html",
    content := goodHtml }

/-- The software-versions entry of the valid output tree. -/
def goodSwEntry : Entry :=
  { dir := "out/pipeline_info", name := "nf_core_scrnaseq_software_mqc_versions.yml",
    content := "versions" }

/-- The parameters file entry of the valid output tree; its content is
the JSON object of the specification's round-trip property. -/
def goodParamsEntry : Entry :=
  { dir := "out/pipeline_info", name := "params_2024-10-07.json",
    content := "\x7b\"a\": 1\x7d" }

/-- One input file, to exercise the input-registration path. -/
def goodInputEntry : Entry :=
  { dir := "in/fastq", name := "sample1.fastq.gz", content := "reads" }

/-- A valid output tree: every expected file present. -/
def goodFS : FS := [goodInputEntry, goodReportEntry, goodSwEntry, goodParamsEntry]

/-- A report whose `workflow_complete` span is absent. -/
def noSpanHtml : String := "<html>Nextflow run id [abc123] still going</html>"

/-- Valid tree except the report lacks the completion span. -/
def noSpanFS : FS :=
  [{ dir := "out/pipeline_info", name := "execution_report_2024-10-07.html",
     content := noSpanHtml }, goodSwEntry, goodParamsEntry]

/-- A report whose `workflow_complete` span is present but holds text
that is not in the `%d-%b-%Y %H:%M:%S` format. -/
def badSpanHtml : String :=
  "<html>Nextflow run id [abc123] <span id=\"workflow_complete\">not-a-date</span></html>"

/-- The report entry with the malformed completion timestamp. -/
def badSpanEntry : Entry :=
  { dir := "out/pipeline_info", name := "execution_report_2024-10-07.html",
    content := badSpanHtml }

/-- Valid tree except the completion timestamp text is malformed. -/
def badSpanFS : FS := [badSpanEntry, goodSwEntry, goodParamsEntry]

/-- Valid tree except no file matches `nf_core_*_software*`. -/
def noSwFS : FS := [goodInputEntry, goodReportEntry, goodParamsEntry]

/-- Valid tree except no file matches `params*`. -/
def noParamsFS : FS := [goodInputEntry, goodReportEntry, goodSwEntry]

/-- A tree with no execution report at all. -/
def noReportFS : FS := [goodInputEntry, goodSwEntry, goodParamsEntry]

/-! ### Lemmas about the glob matcher -/

/-- The fueled matcher is fuel-independent once the fuel exceeds the
combined length of pattern and input. -/
theorem globMatchF_congr : ∀ (f g : Nat) (ps cs : List Char),
    ps.length + cs.length < f → ps.length + cs.length < g →
    globMatchF f ps cs = globMatchF g ps cs := by
  intro f
  induction f with
  | zero => intro g ps cs hf _; exact absurd hf (Nat.not_lt_zero _)
  | succ f ih =>
    intro g ps cs hf hg
    cases g with
    | zero => exact absurd hg (Nat.not_lt_zero _)
    | succ g =>
      cases ps with
      | nil => rfl
      | cons p ps' =>
        cases cs with
        | nil =>
          show (if p = '*' then globMatchF f ps' [] else false) =
               (if p = '*' then globMatchF g ps' [] else false)
          simp only [List.length_cons, List.length_nil] at hf hg
          by_cases hp : p = '*'
          · rw [if_pos hp, if_pos hp]
            exact ih g ps' [] (by simp only [List.length_nil]; omega)
              (by simp only [List.length_nil]; omega)
          · rw [if_neg hp, if_neg hp]
        | cons c cs' =>
          show (if p = '*' then
                  globMatchF f ps' (c :: cs') || globMatchF f (p :: ps') cs'
                else p == c && globMatchF f ps' cs') =
               (if p = '*' then
                  globMatchF g ps' (c :: cs') || globMatchF g (p :: ps') cs'
                else p == c && globMatchF g ps' cs')
          simp only [List.length_cons] at hf hg
          by_cases hp : p = '*'
          · rw [if_pos hp, if_pos hp,
              ih g ps' (c :: cs') (by simp only [List.length_cons]; omega)
                (by simp only [List.length_cons]; omega),
              ih g (p :: ps') cs' (by simp only [List.length_cons]; omega)
                (by simp only [List.length_cons]; omega)]
          · rw [if_neg hp, if_neg hp,
              ih g ps' cs' (by omega) (by omega)]

/-- Any adequate fuel computes `globMatch`. -/
theorem globMatchF_eq_globMatch (f : Nat) (ps cs : List Char)
    (h : ps.length + cs.length < f) : globMatchF f ps cs = globMatch ps cs :=
  globMatchF_congr f (ps.length + cs.length + 1) ps cs h (Nat.lt_succ_self _)

/-- One-step unfolding of `globMatch`. -/
theorem globMatch_eq (ps cs : List Char) :
    globMatch ps cs =
      (match ps with
       | [] => cs.isEmpty
       | p :: ps' =>
         if p = '*' then
           match cs with
           | [] => globMatch ps' []
           | _ :: cs' => globMatch ps' cs || globMatch (p :: ps') cs'
         else
           match cs with
           | [] => false
           | c :: cs' => p == c && globMatch ps' cs') := by
  cases ps with
  | nil => cases cs <;> rfl
  | cons p ps' =>
    cases cs with
    | nil =>
      show (if p = '*' then globMatchF (ps'.length + 1) ps' [] else false) =
           (if p = '*' then globMatch ps' [] else false)
      rw [globMatchF_eq_globMatch _ ps' [] (by simp)]
    | cons c cs' =>
      show (if p = '*' then
              globMatchF (ps'.length + 1 + (cs'.length + 1)) ps' (c :: cs') ||
                globMatchF (ps'.length + 1 + (cs'.length + 1)) (p :: ps') cs'
            else p == c && globMatchF (ps'.length + 1 + (cs'.length + 1)) ps' cs') =
           (if p = '*' then
              globMatch ps' (c :: cs') || globMatch (p :: ps') cs'
            else p == c && globMatch ps' cs')
      rw [globMatchF_eq_globMatch _ ps' (c :: cs')
            (by simp only [List.length_cons]; omega),
          globMatchF_eq_globMatch _ (p :: ps') cs'
            (by simp only [List.length_cons]; omega),
          globMatchF_eq_globMatch _ ps' cs' (by omega)]

/-- A sole `*` matches every input. -/
theorem globMatch_star_any : ∀ cs : List Char, globMatch ['*'] cs = true := by
  intro cs
  induction cs with
  | nil => rfl
  | cons c cs ih =>
    rw [globMatch_eq]
    simp [ih]

/-- Matching a pattern that begins with a literal character forces the
input to begin with that character. -/
theorem globMatch_cons_lit {l : Char} (hl : l ≠ '*') (ps cs : List Char)
    (h : globMatch (l :: ps) cs = true) :
    ∃ cs', cs = l :: cs' ∧ globMatch ps cs' = true := by
  rw [globMatch_eq] at h
  simp only [if_neg hl] at h
  match cs, h with
  | c :: cs', h =>
    simp only [Bool.and_eq_true, beq_iff_eq] at h
    exact ⟨cs', by rw [h.1], h.2⟩

/-- Peeling a star-free literal segment off the front of a matching
pattern peels the same characters off the input. -/
theorem globMatch_append_elim : ∀ (lits : List Char), (∀ c ∈ lits, c ≠ '*') →
    ∀ (r cs : List Char), globMatch (lits ++ r) cs = true →
      ∃ cs', cs = lits ++ cs' ∧ globMatch r cs' = true := by
  intro lits
  induction lits with
  | nil => intro _ r cs h; exact ⟨cs, rfl, h⟩
  | cons l lits ih =>
    intro hstar r cs h
    obtain ⟨cs', hcs, h'⟩ :=
      globMatch_cons_lit (hstar l (by simp)) (lits ++ r) cs h
    obtain ⟨cs'', hcs', h''⟩ := ih (fun c hc => hstar c (by simp [hc])) r cs' h'
    exact ⟨cs'', by rw [hcs, hcs', List.cons_append], h''⟩

/-- A star-free literal segment followed by `*` matches that segment
followed by anything. -/
theorem globMatch_append_star : ∀ (lits : List Char), (∀ c ∈ lits, c ≠ '*') →
    ∀ cs : List Char, globMatch (lits ++ ['*']) (lits ++ cs) = true := by
  intro lits
  induction lits with
  | nil => intro _ cs; exact globMatch_star_any cs
  | cons l lits ih =>
    intro hstar cs
    rw [List.cons_append, List.cons_append, globMatch_eq]
    simp only [if_neg (hstar l (by simp)), beq_self_eq_true, Bool.true_and]
    exact ih (fun c hc => hstar c (by simp [hc])) cs

/-- Every name matching the mandatory glob `execution_report_*.html`
also matches the optional-loop glob `execution_report*`. -/
theorem execHtml_matches_execStar (name : List Char)
    (h : globMatch "execution_report_*.html".data name = true) :
    globMatch "execution_report*".data name = true := by
  have hd : "execution_report_*.html".data =
      "execution_report".data ++ "_*.html".data := by decide
  have hd' : "execution_report*".data =
      "execution_report".data ++ ['*'] := by decide
  rw [hd] at h
  obtain ⟨cs', hcs, _⟩ :=
    globMatch_append_elim "execution_report".data (by decide) _ name h
  rw [hd', hcs]
  exact globMatch_append_star "execution_report".data (by decide) cs'

/-- If the mandatory report glob found a file, the optional report glob
finds one too (same directory, weaker pattern). -/
theorem globHtml_sub {fs : FS} {dir : String} {e : Entry} {rest : List Entry}
    (hg : globDir fs dir "execution_report_*.html" = e :: rest) :
    ∃ f l, globDir fs dir "execution_report*" = f :: l := by
  have he : e ∈ globDir fs dir "execution_report_*.html" := by
    rw [hg]; exact List.mem_cons_self e rest
  unfold globDir at he
  rw [List.mem_filter] at he
  obtain ⟨hmem, hp⟩ := he
  simp only [Bool.and_eq_true, beq_iff_eq] at hp
  have he' : e ∈ globDir fs dir "execution_report*" := by
    unfold globDir
    rw [List.mem_filter]
    exact ⟨hmem, by
      simp only [Bool.and_eq_true, beq_iff_eq]
      exact ⟨hp.1, execHtml_matches_execStar _ hp.2⟩⟩
  match hgl : globDir fs dir "execution_report*", he' with
  | f :: l, _ => exact ⟨f, l, rfl⟩
  | [], he' => exact absurd he' (List.not_mem_nil e)

/-! ### Lemmas about the registration steps -/

/-- The optional-file loop body when the glob finds nothing: only a
warning is recorded. -/
theorem optionalFileStep_missing {fs : FS} {dir nid pat desc : String}
    {setSlot : Run → Option Artifact → Run} {st : State}
    (h : globDir fs dir pat = []) :
    optionalFileStep fs dir nid pat desc setSlot st =
      { st with warnings := st.warnings ++ [pat] } := by
  unfold optionalFileStep
  rw [h]

/-- The optional-file loop body when the glob finds a first file: the
artifact is saved and set on the slot; no warning. -/
theorem optionalFileStep_found {fs : FS} {dir nid pat desc : String}
    {setSlot : Run → Option Artifact → Run} {st : State} {f : Entry}
    {l : List Entry} (h : globDir fs dir pat = f :: l) :
    optionalFileStep fs dir nid pat desc setSlot st =
      { st with
        savedArtifacts := st.savedArtifacts ++ [optArtifact f nid desc],
        run := setSlot st.run (some (optArtifact f nid desc)) } := by
  unfold optionalFileStep
  rw [h]

/-- Any run projection the slot setter preserves is preserved by the
whole loop body. -/
theorem optionalFileStep_run_proj {α : Type} (proj : Run → α)
    {fs : FS} {dir nid pat desc : String}
    {setSlot : Run → Option Artifact → Run} {st : State}
    (hset : ∀ r a, proj (setSlot r a) = proj r) :
    proj (optionalFileStep fs dir nid pat desc setSlot st).run =
      proj st.run := by
  rcases hg : globDir fs dir pat with _ | ⟨f, l⟩
  · rw [optionalFileStep_missing hg]
  · rw [optionalFileStep_found hg]
    exact hset _ _

/-- The loop body never removes a saved artifact. -/
theorem optionalFileStep_saved_mono {fs : FS} {dir nid pat desc : String}
    {setSlot : Run → Option Artifact → Run} {st : State} {a : Artifact}
    (h : a ∈ st.savedArtifacts) :
    a ∈ (optionalFileStep fs dir nid pat desc setSlot st).savedArtifacts := by
  rcases hg : globDir fs dir pat with _ | ⟨f, l⟩
  · rw [optionalFileStep_missing hg]
    exact h
  · rw [optionalFileStep_found hg]
    exact List.mem_append_left _ h

/-- Any warning present after the loop body was either already present
or names the body's own glob pattern. -/
theorem optionalFileStep_warnings_sub {fs : FS} {dir nid pat desc : String}
    {setSlot : Run → Option Artifact → Run} {st : State} {x : String}
    (h : x ∈ (optionalFileStep fs dir nid pat desc setSlot st).warnings) :
    x ∈ st.warnings ∨ x = pat := by
  rcases hg : globDir fs dir pat with _ | ⟨f, l⟩
  · rw [optionalFileStep_missing hg] at h
    rcases List.mem_append.mp h with h' | h'
    · exact Or.inl h'
    · exact Or.inr (List.mem_singleton.mp h')
  · rw [optionalFileStep_found hg] at h
    exact Or.inl h

/-- The transform record is untouched by the loop body. -/
theorem optionalFileStep_transform {fs : FS} {dir nid pat desc : String}
    {setSlot : Run → Option Artifact → Run} {st : State} :
    (optionalFileStep fs dir nid pat desc setSlot st).transform =
      st.transform := by
  rcases hg : globDir fs dir pat with _ | ⟨f, l⟩
  · rw [optionalFileStep_missing hg]
  · rw [optionalFileStep_found hg]

/-- The loop body never runs `run.save()`. -/
theorem optionalFileStep_runSaveCount {fs : FS} {dir nid pat desc : String}
    {setSlot : Run → Option Artifact → Run} {st : State} :
    (optionalFileStep fs dir nid pat desc setSlot st).runSaveCount =
      st.runSaveCount := by
  rcases hg : globDir fs dir pat with _ | ⟨f, l⟩
  · rw [optionalFileStep_missing hg]
  · rw [optionalFileStep_found hg]

/-- The timestamp step only ever fails with a `ValueError`. -/
theorem tsStep_error {content : String} {err : PyErr}
    (h : tsStep content = .error err) : err = .valueError := by
  unfold tsStep at h
  rcases hs : searchComplete content.data with _ | ⟨cap⟩ <;>
    rw [hs] at h <;> simp only at h
  · exact Except.noConfusion h
  · rcases hp : strptimeDBY (pyStrip cap) with _ | ⟨dt⟩ <;>
      rw [hp] at h <;> simp only at h
    · injection h with h'
      exact h'.symm
    · exact Except.noConfusion h

/-- Success-path inversion for `register_pipeline_metadata`: a
successful run pins the execution-report entry, the parsed timestamp,
the params entry and its parsed JSON, and the final state. -/
theorem register_ok_iff {fs : FS} {out : String} {st st' : State} :
    register_pipeline_metadata fs out st = .ok st' ↔
      ∃ e rest ts p prest v,
        globDir fs (pipelineInfo out) "execution_report_*.html" = e :: rest ∧
        tsStep e.content = .ok ts ∧
        globDir fs (pipelineInfo out) "params*" = p :: prest ∧
        jsonLoad p.content = some v ∧
        st' = paramsStep v (midState fs out e ts st) := by
  constructor
  · intro h
    unfold register_pipeline_metadata at h
    rcases hg : globDir fs (pipelineInfo out) "execution_report_*.html"
        with _ | ⟨e, rest⟩ <;> rw [hg] at h
    · cases h
    simp only at h
    rcases hts : tsStep e.content with err | ts <;> rw [hts] at h
    · cases h
    simp only at h
    rcases hp : globDir fs (pipelineInfo out) "params*"
        with _ | ⟨p, prest⟩ <;> rw [hp] at h
    · cases h
    simp only at h
    rcases hv : jsonLoad p.content with _ | v <;> rw [hv] at h
    · cases h
    simp only at h
    cases h
    exact ⟨e, rest, ts, p, prest, v, rfl, hts, rfl, hv, rfl⟩
  · rintro ⟨e, rest, ts, p, prest, v, hg, hts, hp, hv, hst⟩
    unfold register_pipeline_metadata
    rw [hg]
    simp only
    rw [hts]
    simp only
    rw [hp]
    simp only
    rw [hv, hst]

/-! ### Field computations for the state after the optional-file loop -/

/-- The reference set at line 38 survives to the end of the loop. -/
theorem midState_reference {fs : FS} {out : String} {e : Entry}
    {ts : Option DateTime} {st : State} :
    (midState fs out e ts st).run.reference = some (extractRunId e.content) := by
  unfold midState
  rcases hrep : globDir fs (pipelineInfo out) "execution_report*" with _ | ⟨f, l⟩ <;>
    rcases hsw : globDir fs (pipelineInfo out) "nf_core_*_software*" with _ | ⟨g, m⟩
  · rw [optionalFileStep_missing hrep, optionalFileStep_missing hsw]
    cases ts <;> rfl
  · rw [optionalFileStep_missing hrep, optionalFileStep_found hsw]
    cases ts <;> rfl
  · rw [optionalFileStep_found hrep, optionalFileStep_missing hsw]
    cases ts <;> rfl
  · rw [optionalFileStep_found hrep, optionalFileStep_found hsw]
    cases ts <;> rfl

/-- The reference type set at line 39 survives to the end of the loop. -/
theorem midState_reference_type {fs : FS} {out : String} {e : Entry}
    {ts : Option DateTime} {st : State} :
    (midState fs out e ts st).run.reference_type = some "nextflow_id" := by
  unfold midState
  rcases hrep : globDir fs (pipelineInfo out) "execution_report*" with _ | ⟨f, l⟩ <;>
    rcases hsw : globDir fs (pipelineInfo out) "nf_core_*_software*" with _ | ⟨g, m⟩
  · rw [optionalFileStep_missing hrep, optionalFileStep_missing hsw]
    cases ts <;> rfl
  · rw [optionalFileStep_missing hrep, optionalFileStep_found hsw]
    cases ts <;> rfl
  · rw [optionalFileStep_found hrep, optionalFileStep_missing hsw]
    cases ts <;> rfl
  · rw [optionalFileStep_found hrep, optionalFileStep_found hsw]
    cases ts <;> rfl

/-- The finish timestamp after the loop is the parsed one, or the
incoming one when the span was absent. -/
theorem midState_finished {fs : FS} {out : String} {e : Entry}
    {ts : Option DateTime} {st : State} :
    (midState fs out e ts st).run.finished_at =
      (match ts with
       | none => st.run.finished_at
       | some dt => some dt) := by
  unfold midState
  rcases hrep : globDir fs (pipelineInfo out) "execution_report*" with _ | ⟨f, l⟩ <;>
    rcases hsw : globDir fs (pipelineInfo out) "nf_core_*_software*" with _ | ⟨g, m⟩
  · rw [optionalFileStep_missing hrep, optionalFileStep_missing hsw]
    cases ts <;> rfl
  · rw [optionalFileStep_missing hrep, optionalFileStep_found hsw]
    cases ts <;> rfl
  · rw [optionalFileStep_found hrep, optionalFileStep_missing hsw]
    cases ts <;> rfl
  · rw [optionalFileStep_found hrep, optionalFileStep_found hsw]
    cases ts <;> rfl

/-- The loop attaches no parameter values. -/
theorem midState_paramsValues {fs : FS} {out : String} {e : Entry}
    {ts : Option DateTime} {st : State} :
    (midState fs out e ts st).run.paramsValues = st.run.paramsValues := by
  unfold midState
  rcases hrep : globDir fs (pipelineInfo out) "execution_report*" with _ | ⟨f, l⟩ <;>
    rcases hsw : globDir fs (pipelineInfo out) "nf_core_*_software*" with _ | ⟨g, m⟩
  · rw [optionalFileStep_missing hrep, optionalFileStep_missing hsw]
    cases ts <;> rfl
  · rw [optionalFileStep_missing hrep, optionalFileStep_found hsw]
    cases ts <;> rfl
  · rw [optionalFileStep_found hrep, optionalFileStep_missing hsw]
    cases ts <;> rfl
  · rw [optionalFileStep_found hrep, optionalFileStep_found hsw]
    cases ts <;> rfl

/-- The loop defines no parameters. -/
theorem midState_paramDefs {fs : FS} {out : String} {e : Entry}
    {ts : Option DateTime} {st : State} :
    (midState fs out e ts st).paramDefs = st.paramDefs := by
  unfold midState
  rcases hrep : globDir fs (pipelineInfo out) "execution_report*" with _ | ⟨f, l⟩ <;>
    rcases hsw : globDir fs (pipelineInfo out) "nf_core_*_software*" with _ | ⟨g, m⟩
  · rw [optionalFileStep_missing hrep, optionalFileStep_missing hsw]
    cases ts <;> rfl
  · rw [optionalFileStep_missing hrep, optionalFileStep_found hsw]
    cases ts <;> rfl
  · rw [optionalFileStep_found hrep, optionalFileStep_missing hsw]
    cases ts <;> rfl
  · rw [optionalFileStep_found hrep, optionalFileStep_found hsw]
    cases ts <;> rfl

/-- The transform record is untouched up to the end of the loop. -/
theorem midState_transform {fs : FS} {out : String} {e : Entry}
    {ts : Option DateTime} {st : State} :
    (midState fs out e ts st).transform = st.transform := by
  unfold midState
  rcases hrep : globDir fs (pipelineInfo out) "execution_report*" with _ | ⟨f, l⟩ <;>
    rcases hsw : globDir fs (pipelineInfo out) "nf_core_*_software*" with _ | ⟨g, m⟩
  · rw [optionalFileStep_missing hrep, optionalFileStep_missing hsw]
    cases ts <;> rfl
  · rw [optionalFileStep_missing hrep, optionalFileStep_found hsw]
    cases ts <;> rfl
  · rw [optionalFileStep_found hrep, optionalFileStep_missing hsw]
    cases ts <;> rfl
  · rw [optionalFileStep_found hrep, optionalFileStep_found hsw]
    cases ts <;> rfl

/-- `run.save()` does not execute before the final step. -/
theorem midState_runSaveCount {fs : FS} {out : String} {e : Entry}
    {ts : Option DateTime} {st : State} :
    (midState fs out e ts st).runSaveCount = st.runSaveCount := by
  unfold midState
  rcases hrep : globDir fs (pipelineInfo out) "execution_report*" with _ | ⟨f, l⟩ <;>
    rcases hsw : globDir fs (pipelineInfo out) "nf_core_*_software*" with _ | ⟨g, m⟩
  · rw [optionalFileStep_missing hrep, optionalFileStep_missing hsw]
    cases ts <;> rfl
  · rw [optionalFileStep_missing hrep, optionalFileStep_found hsw]
    cases ts <;> rfl
  · rw [optionalFileStep_found hrep, optionalFileStep_missing hsw]
    cases ts <;> rfl
  · rw [optionalFileStep_found hrep, optionalFileStep_found hsw]
    cases ts <;> rfl

/-- When the report glob matches, the report slot holds the artifact of
the first match and that artifact is saved. -/
theorem midState_report_found {fs : FS} {out : String} {e : Entry}
    {ts : Option DateTime} {st : State} {f : Entry} {l : List Entry}
    (hrep : globDir fs (pipelineInfo out) "execution_report*" = f :: l) :
    (midState fs out e ts st).run.report =
      some (optArtifact f (extractRunId e.content) "execution report") ∧
    optArtifact f (extractRunId e.content) "execution report" ∈
      (midState fs out e ts st).savedArtifacts := by
  unfold midState
  rw [optionalFileStep_found hrep]
  rcases hsw : globDir fs (pipelineInfo out) "nf_core_*_software*" with _ | ⟨g, m⟩
  · rw [optionalFileStep_missing hsw]
    exact ⟨by cases ts <;> rfl, by simp⟩
  · rw [optionalFileStep_found hsw]
    exact ⟨by cases ts <;> rfl, by simp⟩

/-- When the software-versions glob matches, the environment slot holds
the artifact of the first match and that artifact is saved. -/
theorem midState_environment_found {fs : FS} {out : String} {e : Entry}
    {ts : Option DateTime} {st : State} {f : Entry} {l : List Entry}
    (hsw : globDir fs (pipelineInfo out) "nf_core_*_software*" = f :: l) :
    (midState fs out e ts st).run.environment =
      some (optArtifact f (extractRunId e.content) "software versions") ∧
    optArtifact f (extractRunId e.content) "software versions" ∈
      (midState fs out e ts st).savedArtifacts := by
  unfold midState
  rw [optionalFileStep_found hsw]
  exact ⟨rfl, by simp⟩

/-- When the software-versions glob finds nothing, the environment slot
is left as it was. -/
theorem midState_environment_missing {fs : FS} {out : String} {e : Entry}
    {ts : Option DateTime} {st : State}
    (hsw : globDir fs (pipelineInfo out) "nf_core_*_software*" = []) :
    (midState fs out e ts st).run.environment = st.run.environment := by
  unfold midState
  rw [optionalFileStep_missing hsw]
  rcases hrep : globDir fs (pipelineInfo out) "execution_report*" with _ | ⟨f, l⟩
  · rw [optionalFileStep_missing hrep]
    cases ts <;> rfl
  · rw [optionalFileStep_found hrep]
    cases ts <;> rfl

/-- When the report glob matches and the software-versions glob finds
nothing, exactly the software warning is appended. -/
theorem midState_warnings_noSw {fs : FS} {out : String} {e : Entry}
    {ts : Option DateTime} {st : State} {f : Entry} {l : List Entry}
    (hrep : globDir fs (pipelineInfo out) "execution_report*" = f :: l)
    (hsw : globDir fs (pipelineInfo out) "nf_core_*_software*" = []) :
    (midState fs out e ts st).warnings =
      st.warnings ++ ["nf_core_*_software*"] := by
  unfold midState
  rw [optionalFileStep_found hrep, optionalFileStep_missing hsw]
  cases ts <;> rfl

/-- When the report glob matches, the loop appends at most the software
warning. -/
theorem midState_warnings_cases {fs : FS} {out : String} {e : Entry}
    {ts : Option DateTime} {st : State} {f : Entry} {l : List Entry}
    (hrep : globDir fs (pipelineInfo out) "execution_report*" = f :: l) :
    (midState fs out e ts st).warnings = st.warnings ∨
    (midState fs out e ts st).warnings =
      st.warnings ++ ["nf_core_*_software*"] := by
  unfold midState
  rw [optionalFileStep_found hrep]
  rcases hsw : globDir fs (pipelineInfo out) "nf_core_*_software*" with _ | ⟨g, m⟩
  · right
    rw [optionalFileStep_missing hsw]
    cases ts <;> rfl
  · left
    rw [optionalFileStep_found hsw]
    cases ts <;> rfl

/-- Artifacts produced by the directory walk are never run-linked
(`run=False` at line 18). -/
theorem fromDir_filter_runLinked (fs : FS) (input_dir : String) :
    (fromDir fs input_dir).filter (fun a => a.runLinked) = [] := by
  show ((fs.filter _).map (fun e => ({ path := e.path } : Artifact))).filter
      (fun a => a.runLinked) = []
  induction fs.filter (fun e => e.dir == input_dir ||
      strStarts (input_dir ++ "/") e.dir) with
  | nil => rfl
  | cons e l ih => simp [ih]

/-! ### Claims -/

/-- C6: `register_pipeline_io` registers exactly two run-associated
output artifacts: the `multiqc` directory (with its description) and the
`combined_filtered_matrix.h5ad` file under the caller-assigned key
`filtered_count_matrix.h5ad`, both at fixed paths under the output
directory. -/
theorem io_registers_two_outputs (fs : FS) (input_dir output_dir : String)
    (st : State) :
    (register_pipeline_io fs input_dir output_dir st).savedArtifacts.filter
        (fun a => a.runLinked) =
      st.savedArtifacts.filter (fun a => a.runLinked) ++
        [{ path := output_dir ++ "/multiqc",
           description := some "multiqc report", key := none,
           visibility := 1, runLinked := true },
         { path := output_dir ++ "/star/mtx_conversions/combined_filtered_matrix.h5ad",
           description := none, key := some "filtered_count_matrix.h5ad",
           visibility := 1, runLinked := true }] := by
  simp only [register_pipeline_io, List.filter_append]
  rw [fromDir_filter_runLinked]
  simp [List.filter]

/-- C7: `register_pipeline_io` enumerates every file under the input
directory (recursively), registers each as an artifact, and links the
full collection as the run's inputs; the only other artifacts it saves
are the two fixed outputs. -/
theorem io_registers_inputs (fs : FS) (input_dir output_dir : String)
    (st : State) :
    (register_pipeline_io fs input_dir output_dir st).run.input_artifacts =
      (fs.filter (fun e => e.dir == input_dir ||
          strStarts (input_dir ++ "/") e.dir)).map
        (fun e => ({ path := e.path } : Artifact)) ∧
    (register_pipeline_io fs input_dir output_dir st).savedArtifacts =
      st.savedArtifacts ++ fromDir fs input_dir ++
        [{ path := output_dir ++ "/multiqc",
           description := some "multiqc report", key := none,
           visibility := 1, runLinked := true },
         { path := output_dir ++ "/star/mtx_conversions/combined_filtered_matrix.h5ad",
           description := none, key := some "filtered_count_matrix.h5ad",
           visibility := 1, runLinked := true }] :=
  ⟨rfl, rfl⟩

/-- C9: the transform record is created with the literal key
`scrna-seq`, version `4.0.0`, type `pipeline` and reference
`https://github.com/nf-core/scrnaseq`, for every value of the `--input`
and `--output` arguments, and it is never modified afterwards. -/
theorem transform_constants (input_dir output_dir : String) :
    (initState input_dir output_dir).transform = scrnaseqTransform ∧
    scrnaseqTransform =
      { key := "scrna-seq", version := "4.0.0", type := "pipeline",
        reference := "https://github.com/nf-core/scrnaseq" } ∧
    ∀ (fs : FS) (st' : State), runScript fs input_dir output_dir = .ok st' →
      st'.transform = scrnaseqTransform := by
  refine ⟨rfl, rfl, ?_⟩
  intro fs st' h
  unfold runScript at h
  obtain ⟨e, rest, ts, p, prest, v, hg, hts, hp, hv, hst⟩ := register_ok_iff.mp h
  subst hst
  show (midState fs output_dir e ts
      (register_pipeline_io fs input_dir output_dir
        (initState input_dir output_dir))).transform = scrnaseqTransform
  rw [midState_transform]
  rfl

/-- Witness for C9 at the valid concrete tree. -/
theorem transform_constants_witness :
    (okOr (runScript goodFS "in" "out") (initState "in" "out")).transform =
      scrnaseqTransform := by
  have hok : runScript goodFS "in" "out" =
      .ok (okOr (runScript goodFS "in" "out") (initState "in" "out")) := rfl
  exact (transform_constants "in" "out").2.2 goodFS _ hok

/-- C2: the run id is extracted with the `run id [...]` pattern and
stored (with type `nextflow_id`) as the run's reference; on the sample
report containing `run id [abc123]` the extracted id is `abc123`; when
the pattern does not occur, the empty string is recorded and the
(total) extraction raises nothing. -/
theorem run_reference_extraction (fs : FS) (out : String) (st st' : State)
    (e : Entry) (rest : List Entry)
    (hg : globDir fs (pipelineInfo out) "execution_report_*.html" = e :: rest) :
    (register_pipeline_metadata fs out st = .ok st' →
      st'.run.reference = some (extractRunId e.content) ∧
      st'.run.reference_type = some "nextflow_id") ∧
    extractRunId goodHtml = "abc123" ∧
    (∀ c : String, searchRunId c.data = none → extractRunId c = "") := by
  refine ⟨?_, rfl, ?_⟩
  · intro hok
    obtain ⟨e', rest', ts, p, prest, v, hg', hts, hp, hv, hst⟩ :=
      register_ok_iff.mp hok
    rw [hg] at hg'
    injection hg' with he hrest
    subst he
    subst hst
    constructor
    · show (midState fs out e ts st).run.reference =
        some (extractRunId e.content)
      exact midState_reference
    · show (midState fs out e ts st).run.reference_type = some "nextflow_id"
      exact midState_reference_type
  · intro c h
    unfold extractRunId
    rw [h]

/-- Witness for C2: on the valid tree the stored reference is
`abc123`. -/
theorem run_reference_extraction_witness :
    (okOr (register_pipeline_metadata goodFS "out" (initState "in" "out"))
        (initState "in" "out")).run.reference = some "abc123" := by
  have hok : register_pipeline_metadata goodFS "out" (initState "in" "out") =
      .ok (okOr (register_pipeline_metadata goodFS "out" (initState "in" "out"))
        (initState "in" "out")) := rfl
  exact ((run_reference_extraction goodFS "out" (initState "in" "out") _
    goodReportEntry [] rfl).1 hok).1

/-- C3: with no match for `execution_report_*.html` the procedure
aborts with the uncaught `StopIteration`; with no match for `params*`
the procedure aborts as well (with the `StopIteration` of the `params`
lookup, unless a malformed completion timestamp already aborted it) —
never a silent default. -/
theorem mandatory_globs_fail_hard (fs : FS) (out : String) (st : State) :
    (globDir fs (pipelineInfo out) "execution_report_*.html" = [] →
      register_pipeline_metadata fs out st = .error .stopIteration) ∧
    (globDir fs (pipelineInfo out) "params*" = [] →
      register_pipeline_metadata fs out st = .error .stopIteration ∨
      register_pipeline_metadata fs out st = .error .valueError) := by
  constructor
  · intro h
    unfold register_pipeline_metadata
    rw [h]
  · intro h
    rcases hr : register_pipeline_metadata fs out st with err | st'
    · unfold register_pipeline_metadata at hr
      rcases hg : globDir fs (pipelineInfo out) "execution_report_*.html"
          with _ | ⟨e, rest⟩ <;> rw [hg] at hr <;> simp only at hr
      · injection hr with h'
        subst h'
        left
        rfl
      · rcases hts : tsStep e.content with err2 | ts <;>
          rw [hts] at hr <;> simp only at hr
        · injection hr with h'
          subst h'
          right
          rw [tsStep_error hts]
        · rw [h] at hr
          simp only at hr
          injection hr with h'
          subst h'
          left
          rfl
    · obtain ⟨e, rest, ts, p, prest, v, hg, hts, hp, hv, hst⟩ :=
        register_ok_iff.mp hr
      rw [h] at hp
      cases hp

/-- Witness for C3: a tree without a report and a tree without a params
file both abort. -/
theorem mandatory_globs_fail_hard_witness :
    register_pipeline_metadata noReportFS "out" (initState "in" "out") =
      .error .stopIteration ∧
    (register_pipeline_metadata noParamsFS "out" (initState "in" "out") =
        .error .stopIteration ∨
      register_pipeline_metadata noParamsFS "out" (initState "in" "out") =
        .error .valueError) :=
  ⟨(mandatory_globs_fail_hard noReportFS "out" (initState "in" "out")).1 rfl,
   (mandatory_globs_fail_hard noParamsFS "out" (initState "in" "out")).2 rfl⟩

/-- C5: every successfully parsed params file is attached under the
parameter name `params` (after saving the `params` definition of dtype
`dict`), and the specification's sample object round-trips. -/
theorem params_attachment (fs : FS) (out : String) (st : State)
    (e p : Entry) (rest prest : List Entry) (ts : Option DateTime) (v : Json)
    (hg : globDir fs (pipelineInfo out) "execution_report_*.html" = e :: rest)
    (hts : tsStep e.content = .ok ts)
    (hp : globDir fs (pipelineInfo out) "params*" = p :: prest)
    (hv : jsonLoad p.content = some v) :
    (register_pipeline_metadata fs out st =
        .ok (paramsStep v (midState fs out e ts st)) ∧
      (paramsStep v (midState fs out e ts st)).run.paramsValues =
        st.run.paramsValues ++ [("params", v)] ∧
      (paramsStep v (midState fs out e ts st)).paramDefs =
        st.paramDefs ++ [("params", "dict")]) ∧
    jsonLoad "\x7b\"a\": 1\x7d" = some (Json.obj [("a", Json.num 1)]) := by
  refine ⟨⟨register_ok_iff.mpr ⟨e, rest, ts, p, prest, v, hg, hts, hp, hv, rfl⟩,
    ?_, ?_⟩, rfl⟩
  · show (midState fs out e ts st).run.paramsValues ++ [("params", v)] =
      st.run.paramsValues ++ [("params", v)]
    rw [midState_paramsValues]
  · show (midState fs out e ts st).paramDefs ++ [("params", "dict")] =
      st.paramDefs ++ [("params", "dict")]
    rw [midState_paramDefs]

/-- Witness for C5: on the valid tree, whose params file holds the
sample object, the stored parameter value round-trips. -/
theorem params_attachment_witness :
    (okOr (register_pipeline_metadata goodFS "out" (initState "in" "out"))
        (initState "in" "out")).run.paramsValues =
      [("params", Json.obj [("a", Json.num 1)])] := by
  have h := params_attachment goodFS "out" (initState "in" "out")
    goodReportEntry goodParamsEntry [] []
    (some ⟨2024, 10, 7, 12, 30, 45⟩) (Json.obj [("a", Json.num 1)])
    rfl rfl rfl rfl
  rw [h.1.1]
  exact h.1.2.1

/-- C4: when no file matches `nf_core_*_software*` (and the rest of the
tree is valid), the procedure still succeeds: it appends exactly the
software warning, leaves the environment slot as it was, and the final
`run.save()` executes. -/
theorem software_versions_optional (fs : FS) (out : String) (st : State)
    (e p : Entry) (rest prest : List Entry) (ts : Option DateTime) (v : Json)
    (hg : globDir fs (pipelineInfo out) "execution_report_*.html" = e :: rest)
    (hts : tsStep e.content = .ok ts)
    (hsw : globDir fs (pipelineInfo out) "nf_core_*_software*" = [])
    (hp : globDir fs (pipelineInfo out) "params*" = p :: prest)
    (hv : jsonLoad p.content = some v) :
    register_pipeline_metadata fs out st =
      .ok (paramsStep v (midState fs out e ts st)) ∧
    (paramsStep v (midState fs out e ts st)).warnings =
      st.warnings ++ ["nf_core_*_software*"] ∧
    (paramsStep v (midState fs out e ts st)).run.environment =
      st.run.environment ∧
    (paramsStep v (midState fs out e ts st)).runSaveCount =
      st.runSaveCount + 1 := by
  obtain ⟨f, l, hrep⟩ := globHtml_sub hg
  refine ⟨register_ok_iff.mpr ⟨e, rest, ts, p, prest, v, hg, hts, hp, hv, rfl⟩,
    ?_, ?_, ?_⟩
  · show (midState fs out e ts st).warnings =
      st.warnings ++ ["nf_core_*_software*"]
    exact midState_warnings_noSw hrep hsw
  · show (midState fs out e ts st).run.environment = st.run.environment
    exact midState_environment_missing hsw
  · show (midState fs out e ts st).runSaveCount + 1 = st.runSaveCount + 1
    rw [midState_runSaveCount]

/-- Witness for C4 at the tree lacking a software-versions file. -/
theorem software_versions_optional_witness :
    isOkResult (register_pipeline_metadata noSwFS "out"
      (initState "in" "out")) = true ∧
    (okOr (register_pipeline_metadata noSwFS "out" (initState "in" "out"))
        (initState "in" "out")).warnings = ["nf_core_*_software*"] ∧
    (okOr (register_pipeline_metadata noSwFS "out" (initState "in" "out"))
        (initState "in" "out")).run.environment = none ∧
    (okOr (register_pipeline_metadata noSwFS "out" (initState "in" "out"))
        (initState "in" "out")).runSaveCount = 2 := by
  have h := software_versions_optional noSwFS "out" (initState "in" "out")
    goodReportEntry goodParamsEntry [] [] (some ⟨2024, 10, 7, 12, 30, 45⟩)
    (Json.obj [("a", Json.num 1)]) rfl rfl rfl rfl rfl
  refine ⟨?_, ?_, ?_, ?_⟩
  · rw [h.1]
    rfl
  · rw [h.1]
    exact h.2.1
  · rw [h.1]
    exact h.2.2.1
  · rw [h.1]
    exact h.2.2.2

/-- C8: each optional glob with a match registers its first match as a
saved artifact with `visibility=0` and a description naming the
extracted run id, attached to the `report` (resp. `environment`) slot. -/
theorem optional_files_registered (fs : FS) (out : String) (st st' : State)
    (e : Entry) (rest : List Entry)
    (hg : globDir fs (pipelineInfo out) "execution_report_*.html" = e :: rest)
    (hok : register_pipeline_metadata fs out st = .ok st') :
    (∀ f l, globDir fs (pipelineInfo out) "execution_report*" = f :: l →
      st'.run.report =
        some (optArtifact f (extractRunId e.content) "execution report") ∧
      optArtifact f (extractRunId e.content) "execution report" ∈
        st'.savedArtifacts) ∧
    (∀ f l, globDir fs (pipelineInfo out) "nf_core_*_software*" = f :: l →
      st'.run.environment =
        some (optArtifact f (extractRunId e.content) "software versions") ∧
      optArtifact f (extractRunId e.content) "software versions" ∈
        st'.savedArtifacts) ∧
    (∀ (f : Entry) (nid desc : String),
      (optArtifact f nid desc).visibility = 0 ∧
      (optArtifact f nid desc).description =
        some ("nextflow run " ++ desc ++ " of " ++ nid)) := by
  obtain ⟨e', rest', ts, p, prest, v, hg', hts, hp, hv, hst⟩ :=
    register_ok_iff.mp hok
  rw [hg] at hg'
  injection hg' with he hrest
  subst he
  subst hst
  refine ⟨?_, ?_, fun f nid desc => ⟨rfl, rfl⟩⟩
  · intro f l hrep
    constructor
    · show (midState fs out e ts st).run.report =
        some (optArtifact f (extractRunId e.content) "execution report")
      exact (midState_report_found hrep).1
    · show optArtifact f (extractRunId e.content) "execution report" ∈
        (midState fs out e ts st).savedArtifacts
      exact (midState_report_found hrep).2
  · intro f l hsw
    constructor
    · show (midState fs out e ts st).run.environment =
        some (optArtifact f (extractRunId e.content) "software versions")
      exact (midState_environment_found hsw).1
    · show optArtifact f (extractRunId e.content) "software versions" ∈
        (midState fs out e ts st).savedArtifacts
      exact (midState_environment_found hsw).2

/-- Witness for C8 at the valid tree: both slots hold the expected
artifacts. -/
theorem optional_files_registered_witness :
    (okOr (register_pipeline_metadata goodFS "out" (initState "in" "out"))
        (initState "in" "out")).run.report =
      some (optArtifact goodReportEntry "abc123" "execution report") ∧
    (okOr (register_pipeline_metadata goodFS "out" (initState "in" "out"))
        (initState "in" "out")).run.environment =
      some (optArtifact goodSwEntry "abc123" "software versions") := by
  have hok : register_pipeline_metadata goodFS "out" (initState "in" "out") =
      .ok (okOr (register_pipeline_metadata goodFS "out" (initState "in" "out"))
        (initState "in" "out")) := rfl
  have h := optional_files_registered goodFS "out" (initState "in" "out") _
    goodReportEntry [] rfl hok
  exact ⟨(h.1 goodReportEntry [] rfl).1, (h.2.1 goodSwEntry [] rfl).1⟩

/-- C10: a successful run implies the mandatory report glob matched, its
match also matches the optional `execution_report*` glob, so the
warning-and-skip branch is unreachable for the report pattern and the
report slot is always set on success. -/
theorem report_slot_always_set (fs : FS) (out : String) (st st' : State)
    (hok : register_pipeline_metadata fs out st = .ok st') :
    st'.run.report.isSome = true ∧
    (∀ name : List Char,
      globMatch "execution_report_*.html".data name = true →
      globMatch "execution_report*".data name = true) ∧
    ("execution_report*" ∈ st'.warnings → "execution_report*" ∈ st.warnings) := by
  obtain ⟨e, rest, ts, p, prest, v, hg, hts, hp, hv, hst⟩ :=
    register_ok_iff.mp hok
  subst hst
  obtain ⟨f, l, hrep⟩ := globHtml_sub hg
  refine ⟨?_, execHtml_matches_execStar, ?_⟩
  · show (midState fs out e ts st).run.report.isSome = true
    rw [(midState_report_found hrep).1]
    rfl
  · intro hw
    have hw' : "execution_report*" ∈ (midState fs out e ts st).warnings := hw
    rcases @midState_warnings_cases fs out e ts st f l hrep with hc | hc
    · rw [hc] at hw'
      exact hw'
    · rw [hc] at hw'
      rcases List.mem_append.mp hw' with h' | h'
      · exact h'
      · exact absurd (List.mem_singleton.mp h') (by decide)

/-- Witness for C10 at the valid tree. -/
theorem report_slot_always_set_witness :
    (okOr (register_pipeline_metadata goodFS "out" (initState "in" "out"))
        (initState "in" "out")).run.report.isSome = true := by
  have hok : register_pipeline_metadata goodFS "out" (initState "in" "out") =
      .ok (okOr (register_pipeline_metadata goodFS "out" (initState "in" "out"))
        (initState "in" "out")) := rfl
  exact (report_slot_always_set goodFS "out" (initState "in" "out") _ hok).1

/-- C1 (counterexample): a report whose `workflow_complete` span is
present but malformed makes the procedure abort with the uncaught
`ValueError` of `strptime` — an error is raised, contradicting the
claim that malformed text is silently treated as absent. -/
theorem completion_malformed_counterexample :
    searchComplete badSpanHtml.data = some "not-a-date".data ∧
    strptimeDBY (pyStrip "not-a-date".data) = none ∧
    register_pipeline_metadata badSpanFS "out" (initState "in" "out") =
      .error .valueError :=
  ⟨rfl, rfl, rfl⟩

/-- C1 (amended): if the span is absent the finish timestamp is left
untouched and the timestamp step raises nothing; if the span is present
and its stripped text parses, the parsed timestamp is stored; if the
span is present but its text is malformed, the procedure aborts with a
`ValueError`. -/
theorem completion_timestamp_amended (fs : FS) (out : String) (st st' : State)
    (e : Entry) (rest : List Entry)
    (hg : globDir fs (pipelineInfo out) "execution_report_*.html" = e :: rest) :
    (register_pipeline_metadata fs out st = .ok st' →
      (searchComplete e.content.data = none →
        st'.run.finished_at = st.run.finished_at) ∧
      (∀ cap dt, searchComplete e.content.data = some cap →
        strptimeDBY (pyStrip cap) = some dt →
        st'.run.finished_at = some dt)) ∧
    (∀ cap, searchComplete e.content.data = some cap →
      strptimeDBY (pyStrip cap) = none →
      register_pipeline_metadata fs out st = .error .valueError) := by
  constructor
  · intro hok
    obtain ⟨e', rest', ts, p, prest, v, hg', hts, hp, hv, hst⟩ :=
      register_ok_iff.mp hok
    rw [hg] at hg'
    injection hg' with he hrest
    subst he
    subst hst
    constructor
    · intro hnone
      unfold tsStep at hts
      rw [hnone] at hts
      simp only at hts
      injection hts with hts'
      subst hts'
      show (midState fs out e none st).run.finished_at = st.run.finished_at
      rw [midState_finished]
    · intro cap dt hcap hdt
      unfold tsStep at hts
      rw [hcap] at hts
      simp only at hts
      rw [hdt] at hts
      simp only at hts
      injection hts with hts'
      subst hts'
      show (midState fs out e (some dt) st).run.finished_at = some dt
      rw [midState_finished]
  · intro cap hcap hbad
    have hts : tsStep e.content = .error .valueError := by
      unfold tsStep
      rw [hcap]
      simp only
      rw [hbad]
    unfold register_pipeline_metadata
    rw [hg]
    simp only
    rw [hts]

/-- Witness for the amended C1: with the span absent the run succeeds
and the finish timestamp stays unset. -/
theorem completion_timestamp_amended_witness :
    isOkResult (register_pipeline_metadata noSpanFS "out"
      (initState "in" "out")) = true ∧
    (okOr (register_pipeline_metadata noSpanFS "out" (initState "in" "out"))
        (initState "in" "out")).run.finished_at = none := by
  have hok : register_pipeline_metadata noSpanFS "out" (initState "in" "out") =
      .ok (okOr (register_pipeline_metadata noSpanFS "out" (initState "in" "out"))
        (initState "in" "out")) := rfl
  have h := (completion_timestamp_amended noSpanFS "out" (initState "in" "out")
    _ ⟨"out/pipeline_info", "execution_report_2024-10-07.html", noSpanHtml⟩ []
    rfl).1 hok
  exact ⟨rfl, h.1 rfl⟩

end NfLamin
